import Mathlib

/-!
Verification of the particle-field animation core of the portfolio repository
(`src/components/ParticleBackgroundOptimized.jsx`) together with the
scroll-progress computations of the surrounding scroll code
(`src/App.jsx`, `src/components/MagicalScrollEffects.jsx`, and the
`useScrollOptimized` hook).

The JavaScript code is shallowly embedded: the simulation arithmetic
(position integration, wrap-around, opacity oscillator, grid bucketing,
squared-distance tests, particle-count formula) is read over `ℚ`, which is
exact for all the operations involved; the pointer-force handler, which takes
square roots, is read over `ℝ`.  Object identity of particles (the JavaScript
`===` test in the connection pass) is modelled by pairing each particle with
its index in the particle array (`List.enum`).
-/

namespace Portfolio

/-- State of one particle of the `Particle` class: position `(x, y)`, visual
`size`, palette index `color` (three fixed colors), velocity
`(speedX, speedY)`, and the pulsing `opacity` with its `opacityDirection`.
The numeric type is a parameter so that the simulation can be read over `ℚ`
and the pointer interaction, which takes square roots, over `ℝ`. -/
structure PState (α : Type) where
  x : α
  y : α
  size : α
  color : Fin 3
  speedX : α
  speedY : α
  opacity : α
  opacityDirection : α
deriving DecidableEq

/-- Embedding of `Particle.update()`: integrate the position by the velocity, wrap each
axis (strictly past the far edge resets to `0`, strictly below `0` resets to
the far edge), then advance the opacity by `opacityDirection * 0.005` and
flip the direction above `0.6` (to shrinking) and below `0.15` (to growing),
in that order. -/
def update (w h : ℚ) (p : PState ℚ) : PState ℚ :=
  let x1 := p.x + p.speedX
  let y1 := p.y + p.speedY
  let x2 := if x1 > w then 0 else x1
  let x3 := if x2 < 0 then w else x2
  let y2 := if y1 > h then 0 else y1
  let y3 := if y2 < 0 then h else y2
  let o1 := p.opacity + p.opacityDirection * (1/200)
  let d1 := if o1 > 3/5 then -1 else p.opacityDirection
  let d2 := if o1 < 3/20 then 1 else d1
  { p with x := x3, y := y3, opacity := o1, opacityDirection := d2 }

/-- Invariant of the opacity oscillator: the direction is `±1`, the opacity
stays within `[0.145, 0.605]`, and whenever the opacity is past a flip
threshold the direction already points back inward. -/
def OpacityInv (p : PState ℚ) : Prop :=
  (p.opacityDirection = 1 ∨ p.opacityDirection = -1) ∧
  29/200 ≤ p.opacity ∧ p.opacity ≤ 121/200 ∧
  (p.opacity > 3/5 → p.opacityDirection = -1) ∧
  (p.opacity < 3/20 → p.opacityDirection = 1)

theorem opacityInv_update (w h : ℚ) (p : PState ℚ) (hp : OpacityInv p) :
    OpacityInv (update w h p) := by
  obtain ⟨hd, hlo, hhi, hup, hdown⟩ := hp
  rcases hd with hd | hd
  · have hle : p.opacity ≤ 3/5 := by
      by_contra hc
      push_neg at hc
      have := hup hc
      rw [hd] at this
      norm_num at this
    simp only [OpacityInv, update, hd]
    split_ifs with h1 h2 <;>
      refine ⟨by norm_num, by linarith, by linarith, fun hx => ?_, fun hx => ?_⟩ <;>
      first | rfl | linarith
  · have hge : 3/20 ≤ p.opacity := by
      by_contra hc
      push_neg at hc
      have := hdown hc
      rw [hd] at this
      norm_num at this
    simp only [OpacityInv, update, hd]
    split_ifs with h1 h2 <;>
      refine ⟨by norm_num, by linarith, by linarith, fun hx => ?_, fun hx => ?_⟩ <;>
      first | rfl | linarith

theorem opacityInv_iterate (w h : ℚ) (p : PState ℚ) (hp : OpacityInv p) (n : ℕ) :
    OpacityInv ((update w h)^[n] p) := by
  induction n with
  | zero => simpa using hp
  | succ k ih =>
    rw [Function.iterate_succ_apply']
    exact opacityInv_update w h _ ih

/-- C4: a particle constructed with opacity in `[0.2, 0.6)` and direction
`±1` keeps `0 ≤ opacity ≤ 1` after any number of `update` calls: the
oscillator (step `0.005`, flipping to shrinking above `0.6` and to growing
below `0.15`) never escapes `[0, 1]` (indeed it stays in `[0.145, 0.605]`). -/
theorem opacity_bounded (w h : ℚ) (p : PState ℚ)
    (hdir : p.opacityDirection = 1 ∨ p.opacityDirection = -1)
    (hlo : 1/5 ≤ p.opacity) (hhi : p.opacity < 3/5) (n : ℕ) :
    0 ≤ ((update w h)^[n] p).opacity ∧ ((update w h)^[n] p).opacity ≤ 1 := by
  have hinv : OpacityInv p := by
    refine ⟨hdir, by linarith, by linarith, by intro hc; linarith, by intro hc; linarith⟩
  have h := opacityInv_iterate w h p hinv n
  obtain ⟨-, h1, h2, -, -⟩ := h
  constructor <;> linarith

/-- C4 witness: the bound instantiated at a concrete particle and three
ticks. -/
theorem opacity_bounded_witness :
    0 ≤ ((update 100 100)^[3] ⟨0, 0, 1, 0, 0, 0, 3/10, 1⟩).opacity ∧
    ((update 100 100)^[3] ⟨0, 0, 1, 0, 0, 0, 3/10, 1⟩).opacity ≤ 1 :=
  opacity_bounded 100 100 ⟨0, 0, 1, 0, 0, 0, 3/10, 1⟩ (Or.inl rfl)
    (by norm_num) (by norm_num) 3

/-- C3 counterexample: the wrap is not into the half-open box
`[0, width) × [0, height)`.  A particle at `x = 0` moving left is reset to
`x = width` itself, which is not `< width`. -/
theorem update_wrap_counterexample :
    (update 100 100 ⟨0, 0, 1, 0, -1, -1, 3/10, 1⟩).x = 100 ∧
    ¬ (update 100 100 ⟨0, 0, 1, 0, -1, -1, 3/10, 1⟩).x < 100 := by
  norm_num [update]

/-- C3 amended: after `update` the position always lies in the closed box
`[0, width] × [0, height]` (for nonnegative canvas dimensions), whatever the
initial position and velocity; the boundary value `width` (resp. `height`)
itself is attained when a coordinate leaves through the low edge. -/
theorem update_wrap_closed_bounds (w h : ℚ) (p : PState ℚ)
    (hw : 0 ≤ w) (hh : 0 ≤ h) :
    (0 ≤ (update w h p).x ∧ (update w h p).x ≤ w) ∧
    (0 ≤ (update w h p).y ∧ (update w h p).y ≤ h) := by
  simp only [update]
  constructor <;> constructor <;> split_ifs <;> linarith

/-- C3 amended, witness: the closed bounds instantiated at a concrete
particle that leaves through the low edge of a `100 × 100` canvas. -/
theorem update_wrap_closed_bounds_witness :
    (0 ≤ (update 100 100 ⟨0, 0, 1, 0, -1, -1, 3/10, 1⟩).x ∧
      (update 100 100 ⟨0, 0, 1, 0, -1, -1, 3/10, 1⟩).x ≤ 100) ∧
    (0 ≤ (update 100 100 ⟨0, 0, 1, 0, -1, -1, 3/10, 1⟩).y ∧
      (update 100 100 ⟨0, 0, 1, 0, -1, -1, 3/10, 1⟩).y ≤ 100) :=
  update_wrap_closed_bounds 100 100 ⟨0, 0, 1, 0, -1, -1, 3/10, 1⟩
    (by norm_num) (by norm_num)

/-! ## Spatial grid and connection pass

The grid (`buildGrid`) buckets particles by `(⌊x/cellSize⌋, ⌊y/cellSize⌋)`;
`getNearbyCells` enumerates the 3×3 cell neighborhood in the source's loop
order (`dx` outer, `dy` inner, each from `-1` to `1`).  A particle is paired
with its array index so that the JavaScript identity test
`particle === other` is the index test. -/

/-- Cell side of the spatial grid (`gridRef` is initialised with
`cellSize: 150`). -/
def cellSize : ℚ := 150

/-- Cell key of a particle, `floor(x/cellSize), floor(y/cellSize)` as in
`buildGrid`. -/
def cellOf (p : PState ℚ) : ℤ × ℤ := (⌊p.x / cellSize⌋, ⌊p.y / cellSize⌋)

/-- Embedding of `buildGrid(particles, cellSize)`: bucket of a cell key, holding the
indexed particles of that cell in array order (a key absent from the
JavaScript object corresponds to an empty bucket). -/
def buildGrid (eps : List (ℕ × PState ℚ)) : (ℤ × ℤ) → List (ℕ × PState ℚ) :=
  fun k => eps.filter fun e => decide (cellOf e.2 = k)

/-- Embedding of `getNearbyCells(cellX, cellY)`: the nine keys of the 3×3 neighborhood,
in loop order. -/
def getNearbyCells (k : ℤ × ℤ) : List (ℤ × ℤ) :=
  [(k.1 - 1, k.2 - 1), (k.1 - 1, k.2), (k.1 - 1, k.2 + 1),
   (k.1, k.2 - 1), (k.1, k.2), (k.1, k.2 + 1),
   (k.1 + 1, k.2 - 1), (k.1 + 1, k.2), (k.1 + 1, k.2 + 1)]

/-- The `nearbyParticles` array of the connection pass: concatenation of the
buckets of the nine nearby cells of the particle's current cell. -/
def nearbyEntries (g : (ℤ × ℤ) → List (ℕ × PState ℚ)) (p : PState ℚ) :
    List (ℕ × PState ℚ) :=
  (getNearbyCells (cellOf p)).flatMap g

/-- Squared distance `dx*dx + dy*dy` of the connection pass. -/
def distSq (p q : PState ℚ) : ℚ :=
  (p.x - q.x) * (p.x - q.x) + (p.y - q.y) * (p.y - q.y)

/-- Connection threshold `maxDistSq = 120 * 120`. -/
def maxDistSq : ℚ := 120 * 120

/-- The connection pass over a given grid: for every particle (in array
order), every nearby particle other than itself (`particle === other` is
skipped) at squared distance below `maxDistSq` yields one drawn line,
recorded as the ordered pair of indexed endpoints. -/
def connectionPairs (g : (ℤ × ℤ) → List (ℕ × PState ℚ))
    (eps : List (ℕ × PState ℚ)) :
    List ((ℕ × PState ℚ) × (ℕ × PState ℚ)) :=
  eps.flatMap fun e =>
    ((nearbyEntries g e.2).filter fun o =>
      decide (o.1 ≠ e.1) && decide (distSq e.2 o.2 < maxDistSq)).map fun o => (e, o)

/-- Grid-based connection pass with the grid freshly built from the
particles' current positions. -/
def gridConnections (ps : List (PState ℚ)) :
    List ((ℕ × PState ℚ) × (ℕ × PState ℚ)) :=
  connectionPairs (buildGrid ps.enum) ps.enum

/-- Reference brute-force all-pairs pass: same self-skip and same squared
distance threshold, but every other particle is a candidate. -/
def bruteConnections (ps : List (PState ℚ)) :
    List ((ℕ × PState ℚ) × (ℕ × PState ℚ)) :=
  ps.enum.flatMap fun e =>
    (ps.enum.filter fun o =>
      decide (o.1 ≠ e.1) && decide (distSq e.2 o.2 < maxDistSq)).map fun o => (e, o)

theorem mem_getNearbyCells (k q : ℤ × ℤ) :
    q ∈ getNearbyCells k ↔
      k.1 - 1 ≤ q.1 ∧ q.1 ≤ k.1 + 1 ∧ k.2 - 1 ≤ q.2 ∧ q.2 ≤ k.2 + 1 := by
  rcases k with ⟨a, b⟩
  rcases q with ⟨c, d⟩
  simp only [getNearbyCells, List.mem_cons, List.mem_singleton, Prod.mk.injEq,
    List.not_mem_nil, or_false]
  omega

theorem floor_le_floor_add_one (a b : ℚ) (h : a ≤ b + 150) :
    ⌊a / 150⌋ ≤ ⌊b / 150⌋ + 1 := by
  have h1 : a / 150 ≤ b / 150 + ((1 : ℤ) : ℚ) := by push_cast; linarith
  have h2 := Int.floor_le_floor h1
  rwa [Int.floor_add_int] at h2

theorem close_of_distSq_lt (p q : PState ℚ) (h : distSq p q < maxDistSq) :
    |q.x - p.x| ≤ cellSize ∧ |q.y - p.y| ≤ cellSize := by
  simp only [distSq, maxDistSq, cellSize] at *
  constructor <;> rw [abs_le] <;> constructor <;>
    nlinarith [sq_nonneg (p.x - q.x), sq_nonneg (p.y - q.y)]

theorem cellOf_mem_nearby_of_close (p q : PState ℚ)
    (hx : |q.x - p.x| ≤ cellSize) (hy : |q.y - p.y| ≤ cellSize) :
    cellOf q ∈ getNearbyCells (cellOf p) := by
  rw [mem_getNearbyCells]
  rw [cellSize, abs_le] at hx hy
  simp only [cellOf, cellSize]
  refine ⟨?_, ?_, ?_, ?_⟩
  · have := floor_le_floor_add_one p.x q.x (by linarith)
    omega
  · exact floor_le_floor_add_one q.x p.x (by linarith)
  · have := floor_le_floor_add_one p.y q.y (by linarith)
    omega
  · exact floor_le_floor_add_one q.y p.y (by linarith)

theorem mem_nearbyEntries (eps : List (ℕ × PState ℚ)) (p : PState ℚ)
    (o : ℕ × PState ℚ) :
    o ∈ nearbyEntries (buildGrid eps) p ↔
      o ∈ eps ∧ cellOf o.2 ∈ getNearbyCells (cellOf p) := by
  simp only [nearbyEntries, buildGrid, List.mem_flatMap, List.mem_filter,
    decide_eq_true_eq]
  constructor
  · rintro ⟨k, hk, ho, hck⟩
    exact ⟨ho, hck ▸ hk⟩
  · rintro ⟨ho, hk⟩
    exact ⟨cellOf o.2, hk, ho, rfl⟩

/-- C1: for every fixed arrangement of particles, with the grid built from
their current positions, the grid-based connection pass produces exactly the
same set of lines as the brute-force all-pairs pass with the same squared
distance threshold (`120²`): membership in the two passes coincides. -/
theorem gridConnections_eq_bruteConnections (ps : List (PState ℚ))
    (c : (ℕ × PState ℚ) × (ℕ × PState ℚ)) :
    c ∈ gridConnections ps ↔ c ∈ bruteConnections ps := by
  simp only [gridConnections, bruteConnections, connectionPairs,
    List.mem_flatMap, List.mem_map, List.mem_filter, Bool.and_eq_true,
    decide_eq_true_eq]
  constructor
  · rintro ⟨e, he, o, ⟨ho, hne, hdist⟩, rfl⟩
    rw [mem_nearbyEntries] at ho
    exact ⟨e, he, o, ⟨ho.1, hne, hdist⟩, rfl⟩
  · rintro ⟨e, he, o, ⟨ho, hne, hdist⟩, rfl⟩
    refine ⟨e, he, o, ⟨?_, hne, hdist⟩, rfl⟩
    rw [mem_nearbyEntries]
    obtain ⟨hx, hy⟩ := close_of_distSq_lt e.2 o.2 hdist
    exact ⟨ho, cellOf_mem_nearby_of_close e.2 o.2 hx hy⟩

theorem enum_nodup (ps : List (PState ℚ)) : ps.enum.Nodup :=
  (List.nodup_enum_map_fst ps).of_map _

theorem getNearbyCells_nodup (k : ℤ × ℤ) : (getNearbyCells k).Nodup := by
  rcases k with ⟨a, b⟩
  simp only [getNearbyCells, List.nodup_cons, List.mem_cons,
    List.mem_singleton, List.not_mem_nil, Prod.mk.injEq, List.nodup_nil,
    and_true, true_and, not_false_eq_true, not_or]
  push_neg
  repeat' apply And.intro
  all_goals omega

theorem dist_le_of_floor_close (a b : ℚ)
    (h1 : ⌊b / 150⌋ - 1 ≤ ⌊a / 150⌋) (h2 : ⌊a / 150⌋ ≤ ⌊b / 150⌋ + 1) :
    |a - b| ≤ 300 := by
  have ha1 : ((⌊a / 150⌋ : ℤ) : ℚ) ≤ a / 150 := Int.floor_le _
  have ha2 : a / 150 < (⌊a / 150⌋ : ℚ) + 1 := Int.lt_floor_add_one _
  have hb1 : ((⌊b / 150⌋ : ℤ) : ℚ) ≤ b / 150 := Int.floor_le _
  have hb2 : b / 150 < (⌊b / 150⌋ : ℚ) + 1 := Int.lt_floor_add_one _
  have hc1 : ((⌊b / 150⌋ : ℤ) : ℚ) - 1 ≤ ((⌊a / 150⌋ : ℤ) : ℚ) := by
    exact_mod_cast sub_le_iff_le_add.mpr (by exact_mod_cast sub_le_iff_le_add.mp h1)
  have hc2 : ((⌊a / 150⌋ : ℤ) : ℚ) ≤ ((⌊b / 150⌋ : ℤ) : ℚ) + 1 := by
    exact_mod_cast h2
  rw [abs_le]
  constructor <;> linarith

/-- C2: for every particle of the arrangement and the grid built from the
current positions, the 3×3 neighbor query contains the particle itself,
contains every particle of the arrangement whose position differs from its
by at most `cellSize` on each axis, has no duplicates, and contains no
particle farther than `2·cellSize` from it on either axis. -/
theorem nearby_query_spec (ps : List (PState ℚ)) (e : ℕ × PState ℚ)
    (he : e ∈ ps.enum) :
    e ∈ nearbyEntries (buildGrid ps.enum) e.2 ∧
    (∀ o ∈ ps.enum, |o.2.x - e.2.x| ≤ cellSize → |o.2.y - e.2.y| ≤ cellSize →
      o ∈ nearbyEntries (buildGrid ps.enum) e.2) ∧
    (nearbyEntries (buildGrid ps.enum) e.2).Nodup ∧
    (∀ o ∈ nearbyEntries (buildGrid ps.enum) e.2,
      |o.2.x - e.2.x| ≤ 2 * cellSize ∧ |o.2.y - e.2.y| ≤ 2 * cellSize) := by
  refine ⟨?_, ?_, ?_, ?_⟩
  · rw [mem_nearbyEntries]
    refine ⟨he, ?_⟩
    rw [mem_getNearbyCells]
    refine ⟨by linarith, by linarith, by linarith, by linarith⟩
  · intro o ho hx hy
    rw [mem_nearbyEntries]
    exact ⟨ho, cellOf_mem_nearby_of_close e.2 o.2 hx hy⟩
  · rw [nearbyEntries, List.nodup_flatMap]
    constructor
    · intro k _
      exact (enum_nodup ps).filter _
    · refine (getNearbyCells_nodup (cellOf e.2)).imp ?_
      intro k1 k2 hne o h1 h2
      rw [buildGrid, List.mem_filter, decide_eq_true_eq] at h1 h2
      exact hne (h1.2 ▸ h2.2)
  · intro o ho
    rw [mem_nearbyEntries, mem_getNearbyCells] at ho
    obtain ⟨-, hb⟩ := ho
    simp only [cellOf, cellSize] at hb
    rw [cellSize]
    norm_num
    constructor
    · exact dist_le_of_floor_close o.2.x e.2.x (by omega) (by omega)
    · exact dist_le_of_floor_close o.2.y e.2.y (by omega) (by omega)

/-- Sample particle at the origin. -/
def sampleA : PState ℚ := ⟨0, 0, 1, 0, 0, 0, 3/10, 1⟩

/-- Sample particle 10 canvas units to the right of `sampleA` (same grid
cell, within connection range). -/
def sampleB : PState ℚ := ⟨10, 0, 1, 0, 0, 0, 3/10, 1⟩

/-- C2 witness: the neighbor-query specification instantiated on a concrete
two-particle arrangement. -/
theorem nearby_query_spec_witness :
    ((0 : ℕ), sampleA) ∈ nearbyEntries (buildGrid [sampleA, sampleB].enum) sampleA ∧
    (∀ o ∈ [sampleA, sampleB].enum,
      |o.2.x - sampleA.x| ≤ cellSize → |o.2.y - sampleA.y| ≤ cellSize →
      o ∈ nearbyEntries (buildGrid [sampleA, sampleB].enum) sampleA) ∧
    (nearbyEntries (buildGrid [sampleA, sampleB].enum) sampleA).Nodup ∧
    (∀ o ∈ nearbyEntries (buildGrid [sampleA, sampleB].enum) sampleA,
      |o.2.x - sampleA.x| ≤ 2 * cellSize ∧ |o.2.y - sampleA.y| ≤ 2 * cellSize) :=
  nearby_query_spec [sampleA, sampleB] ((0 : ℕ), sampleA)
    (List.mem_cons_self _ _)

/-- C10: the connection pass never draws a line from a particle to itself:
every drawn pair joins two distinct array slots (the `particle === other`
neighbor is skipped), even though the neighbor query returns the particle
itself. -/
theorem no_self_connection (ps : List (PState ℚ))
    (c : (ℕ × PState ℚ) × (ℕ × PState ℚ)) (hc : c ∈ gridConnections ps) :
    c.1.1 ≠ c.2.1 := by
  simp only [gridConnections, connectionPairs, List.mem_flatMap, List.mem_map,
    List.mem_filter, Bool.and_eq_true, decide_eq_true_eq] at hc
  obtain ⟨e, _, o, ⟨-, hne, -⟩, rfl⟩ := hc
  exact fun h => hne (h.symm)

theorem sample_connection_mem :
    (((0 : ℕ), sampleA), ((1 : ℕ), sampleB)) ∈
      gridConnections [sampleA, sampleB] := by
  simp only [gridConnections, connectionPairs, List.mem_flatMap, List.mem_map,
    List.mem_filter, Bool.and_eq_true, decide_eq_true_eq]
  refine ⟨((0 : ℕ), sampleA), List.mem_cons_self _ _,
    ((1 : ℕ), sampleB), ⟨?_, by norm_num, ?_⟩, rfl⟩
  · rw [mem_nearbyEntries]
    refine ⟨List.mem_cons_of_mem _ (List.mem_cons_self _ _), ?_⟩
    rw [mem_getNearbyCells]
    norm_num [cellOf, cellSize, sampleA, sampleB]
  · norm_num [distSq, maxDistSq, sampleA, sampleB]

/-- C10 witness: a concrete drawn connection joins two distinct slots. -/
theorem no_self_connection_witness :
    ((((0 : ℕ), sampleA), ((1 : ℕ), sampleB)) :
      (ℕ × PState ℚ) × (ℕ × PState ℚ)).1.1 ≠
    ((((0 : ℕ), sampleA), ((1 : ℕ), sampleB)) :
      (ℕ × PState ℚ) × (ℕ × PState ℚ)).2.1 :=
  no_self_connection [sampleA, sampleB] _ sample_connection_mem

/-! ## One animation tick -/

/-- Drawing commands issued during one `animate()` frame: a particle dot or
a connection line. -/
inductive DrawCmd where
  | circle (x y size : ℚ) (color : Fin 3) (opacity : ℚ)
  | line (x1 y1 x2 y2 : ℚ)
deriving DecidableEq

/-- Embedding of `Particle.draw()`: a filled circle at the particle's position with its
size, palette color and current opacity. -/
def circleCmd (p : PState ℚ) : DrawCmd :=
  DrawCmd.circle p.x p.y p.size p.color p.opacity

/-- Lines emitted by the connection pass over grid `g`: one per connection
pair, from the particle to the nearby particle. -/
def lineCmds (g : (ℤ × ℤ) → List (ℕ × PState ℚ))
    (eps : List (ℕ × PState ℚ)) : List DrawCmd :=
  (connectionPairs g eps).map fun c => DrawCmd.line c.1.2.x c.1.2.y c.2.2.x c.2.2.y

/-- One call of `animate()`: update and draw every particle, rebuild the
spatial grid when the frame counter is divisible by 3 (otherwise keep the
grid `g` of the previous frames), and, unless the reduced-motion media query
matches (`reduced`), run the connection pass.  Returns the new particle
states, the grid handed to the next frame, and the frame's draw commands in
issue order. -/
def tick (reduced : Bool) (w h : ℚ) (counter : ℕ)
    (g : (ℤ × ℤ) → List (ℕ × PState ℚ)) (ps : List (PState ℚ)) :
    List (PState ℚ) × ((ℤ × ℤ) → List (ℕ × PState ℚ)) × List DrawCmd :=
  let ps2 := ps.map (update w h)
  let circles := ps2.map circleCmd
  let g2 := if counter % 3 = 0 then buildGrid ps2.enum else g
  let lines := if reduced then [] else lineCmds g2 ps2.enum
  (ps2, g2, circles ++ lines)

/-- C7: a tick with the reduced-motion preference signaled produces exactly
the same particle states and the same grid as one without it, and its draw
commands are exactly the particle dots of the updated particles (each drawn
as in the unreduced tick); the unreduced tick additionally appends the
connection lines. -/
theorem tick_reduced_motion (w h : ℚ) (counter : ℕ)
    (g : (ℤ × ℤ) → List (ℕ × PState ℚ)) (ps : List (PState ℚ)) :
    (tick true w h counter g ps).1 = (tick false w h counter g ps).1 ∧
    (tick true w h counter g ps).2.1 = (tick false w h counter g ps).2.1 ∧
    (tick true w h counter g ps).2.2 = (ps.map (update w h)).map circleCmd ∧
    (tick false w h counter g ps).2.2 =
      (tick true w h counter g ps).2.2 ++
        lineCmds ((tick false w h counter g ps).2.1)
          ((ps.map (update w h)).enum) := by
  refine ⟨rfl, rfl, ?_, ?_⟩ <;> simp [tick]

/-! ## Adaptive particle count -/

/-- The two `areaPerParticle` divisors of the `particleCount` computation:
`20000` on a low-power device, `8000` otherwise. -/
def areaPerParticle (isLowPowerDevice : Bool) : ℚ :=
  if isLowPowerDevice then 20000 else 8000

/-- The `particleCount` computation of the mount effect:
`max(30, floor(area/20000))` on a low-power device, otherwise
`max(80, min(100, floor(area/8000)))`. -/
def particleCount (isLowPowerDevice : Bool) (w h : ℚ) : ℤ :=
  if isLowPowerDevice then max 30 ⌊w * h / 20000⌋
  else max 80 (min 100 ⌊w * h / 8000⌋)

/-- C6 counterexample: on a constrained device the divisor is not reduced —
the code raises the area per particle from `8000` to `20000`. -/
theorem particleCount_divisor_not_reduced :
    areaPerParticle true = 20000 ∧ areaPerParticle false = 8000 ∧
    ¬ areaPerParticle true < areaPerParticle false := by
  norm_num [areaPerParticle]

/-- C6 amended: on a normal device the particle count is the clamp of
`⌊area/8000⌋` between `80` and `100`; on a constrained device the lower
bound is reduced to `30` but the divisor is increased to `20000` and the
count is only bounded below — `max(30, ⌊area/20000⌋)` grows without any
upper clamp as the canvas area grows. -/
theorem particleCount_formula (w h : ℚ) :
    particleCount false w h = min 100 (max 80 ⌊w * h / 8000⌋) ∧
    particleCount true w h = max 30 ⌊w * h / 20000⌋ ∧
    ∀ b : ℤ, ∃ w2 h2 : ℚ, b < particleCount true w2 h2 := by
  refine ⟨?_, by simp [particleCount], ?_⟩
  · simp only [particleCount, if_neg Bool.false_ne_true]
    omega
  · intro b
    refine ⟨((20000 * (b.toNat + 31) : ℤ) : ℚ), 1, ?_⟩
    have harg : ((20000 * (b.toNat + 31) : ℤ) : ℚ) * 1 / 20000 =
        (((b.toNat : ℤ) + 31 : ℤ) : ℚ) := by
      push_cast
      ring
    simp only [particleCount, if_pos rfl, if_true, harg, Int.floor_intCast]
    have hb := Int.self_le_toNat b
    omega

/-! ## Scroll-progress computations of the surrounding scroll code

JavaScript numbers are modelled with explicit non-finite values so that a
division by zero is visible: `x/0` is `NaN` when `x = 0` and a signed
infinity otherwise. -/

/-- A JavaScript number: a finite value, `NaN`, or a signed infinity. -/
inductive JsNum where
  | num (q : ℚ)
  | nan
  | posInf
  | negInf
deriving DecidableEq

/-- JavaScript division of two finite numbers. -/
def jsDiv (a b : ℚ) : JsNum :=
  if b = 0 then (if a = 0 then JsNum.nan else if 0 < a then JsNum.posInf else JsNum.negInf)
  else JsNum.num (a / b)

/-- Multiplication of a JavaScript number by the positive literal `100`:
finite values multiply; `NaN` and the infinities are preserved. -/
def jsMul100 : JsNum → JsNum
  | JsNum.num q => JsNum.num (q * 100)
  | x => x

/-- Embedding of `handleScroll` of `App.jsx`: `scrollPercent = (scrollTop / docHeight) * 100`,
with `docHeight = scrollHeight - innerHeight` and no guard against zero. -/
def appScrollPercent (scrollTop docHeight : ℚ) : JsNum :=
  jsMul100 (jsDiv scrollTop docHeight)

/-- Scroll-progress ray width of `MagicalScrollEffects.jsx`:
`(scrollY / (scrollHeight - innerHeight)) * 100`, no guard against zero. -/
def rayWidthPercent (scrollY scrollHeight innerHeight : ℚ) : JsNum :=
  jsMul100 (jsDiv scrollY (scrollHeight - innerHeight))

/-- Embedding of `handleScroll` of the `useScrollOptimized` hook:
`docHeight > 0 ? (scrollTop / docHeight) * 100 : 0` — the guarded variant. -/
def optimizedScrollPercent (scrollTop docHeight : ℚ) : JsNum :=
  if 0 < docHeight then JsNum.num (scrollTop / docHeight * 100) else JsNum.num 0

/-- C8: when the document content height equals the viewport height
(`docHeight = 0`), the unguarded computations of `App.jsx` and
`MagicalScrollEffects.jsx` produce `Infinity` (or `NaN` at `scrollTop = 0`)
instead of clamping, while the `useScrollOptimized` hook clamps to `0`. -/
theorem scrollPercent_div_zero :
    appScrollPercent 100 0 = JsNum.posInf ∧
    appScrollPercent 0 0 = JsNum.nan ∧
    rayWidthPercent 100 500 500 = JsNum.posInf ∧
    optimizedScrollPercent 100 0 = JsNum.num 0 ∧
    optimizedScrollPercent 0 0 = JsNum.num 0 := by
  norm_num [appScrollPercent, rayWidthPercent, optimizedScrollPercent,
    jsDiv, jsMul100]

/-! ## Pointer interaction (`handleMouseMove`)

The per-particle body of the `particles.forEach` of `handleMouseMove`, read
over `ℝ` because it takes square roots: if the particle is within the
interaction radius `100` of the pointer, an impulse
`d * (100 - distance)/100 * 0.005` is added to the velocity, and the
resulting speed is rescaled to `1.5` whenever it exceeds that maximum. -/

/-- Per-particle body of `handleMouseMove`, at pointer position
`(mx, my)`. -/
noncomputable def handleMouseParticle (mx my : ℝ) (p : PState ℝ) : PState ℝ :=
  let dx := mx - p.x
  let dy := my - p.y
  let distance := Real.sqrt (dx * dx + dy * dy)
  if distance < 100 then
    let force := (100 - distance) / 100
    let sx := p.speedX + dx * force * 0.005
    let sy := p.speedY + dy * force * 0.005
    let speed := Real.sqrt (sx ^ 2 + sy ^ 2)
    if speed > 1.5 then
      { p with speedX := sx / speed * 1.5, speedY := sy / speed * 1.5 }
    else
      { p with speedX := sx, speedY := sy }
  else p

theorem clamped_speed_le (sx sy : ℝ)
    (h : Real.sqrt (sx ^ 2 + sy ^ 2) > 1.5) :
    Real.sqrt ((sx / Real.sqrt (sx ^ 2 + sy ^ 2) * 1.5) ^ 2 +
      (sy / Real.sqrt (sx ^ 2 + sy ^ 2) * 1.5) ^ 2) ≤ 1.5 := by
  have hS : (0 : ℝ) ≤ sx ^ 2 + sy ^ 2 := by positivity
  have hsq : Real.sqrt (sx ^ 2 + sy ^ 2) ^ 2 = sx ^ 2 + sy ^ 2 :=
    Real.sq_sqrt hS
  have hR : (0 : ℝ) < Real.sqrt (sx ^ 2 + sy ^ 2) :=
    lt_trans (by norm_num) h
  have hRne : Real.sqrt (sx ^ 2 + sy ^ 2) ≠ 0 := ne_of_gt hR
  have hSne : sx ^ 2 + sy ^ 2 ≠ 0 := by
    rw [← hsq]
    exact pow_ne_zero 2 hRne
  have key : (sx / Real.sqrt (sx ^ 2 + sy ^ 2) * 1.5) ^ 2 +
      (sy / Real.sqrt (sx ^ 2 + sy ^ 2) * 1.5) ^ 2 = 1.5 ^ 2 := by
    have expand : (sx / Real.sqrt (sx ^ 2 + sy ^ 2) * 1.5) ^ 2 +
        (sy / Real.sqrt (sx ^ 2 + sy ^ 2) * 1.5) ^ 2 =
        (sx ^ 2 + sy ^ 2) / Real.sqrt (sx ^ 2 + sy ^ 2) ^ 2 * 1.5 ^ 2 := by
      ring
    rw [expand, hsq, div_self hSne, one_mul]
  rw [key, Real.sqrt_sq (by norm_num : (0 : ℝ) ≤ 1.5)]

/-- C5: for every particle with speed at most `1.5` and every pointer
position (including positions arbitrarily close to the particle), the speed
after the mouse-move force application never exceeds the maximum of `1.5`
units per tick. -/
theorem mouse_speed_clamped (mx my : ℝ) (p : PState ℝ)
    (h : Real.sqrt (p.speedX ^ 2 + p.speedY ^ 2) ≤ 1.5) :
    Real.sqrt ((handleMouseParticle mx my p).speedX ^ 2 +
      (handleMouseParticle mx my p).speedY ^ 2) ≤ 1.5 := by
  simp only [handleMouseParticle]
  split_ifs with h1 h2
  · exact clamped_speed_le _ _ h2
  · push_neg at h2
    exact h2
  · exact h

/-- C5 witness: the clamp instantiated at a particle at rest exactly under
the pointer. -/
theorem mouse_speed_clamped_witness :
    Real.sqrt ((handleMouseParticle 0 0 ⟨0, 0, 1, 0, 0, 0, 1/2, 1⟩).speedX ^ 2 +
      (handleMouseParticle 0 0 ⟨0, 0, 1, 0, 0, 0, 1/2, 1⟩).speedY ^ 2) ≤ 1.5 :=
  mouse_speed_clamped 0 0 ⟨0, 0, 1, 0, 0, 0, 1/2, 1⟩
    (by norm_num [Real.sqrt_zero])

/-- C9 counterexample: a particle exactly coincident with the pointer is not
always left with an unchanged velocity — with speed `(2, 0)` (above the
`1.5` cap) the zero impulse is followed by the speed clamp, which rescales
`speedX` from `2` to `1.5`. -/
theorem mouse_coincident_counterexample :
    (handleMouseParticle 0 0 ⟨0, 0, 1, 0, 2, 0, 1/2, 1⟩).speedX ≠
      (⟨0, 0, 1, 0, 2, 0, 1/2, 1⟩ : PState ℝ).speedX := by
  have h4 : Real.sqrt 4 = 2 := by
    rw [show (4 : ℝ) = 2 ^ 2 by norm_num,
      Real.sqrt_sq (by norm_num : (0 : ℝ) ≤ 2)]
  simp only [handleMouseParticle]
  norm_num [Real.sqrt_zero, h4]

/-- C9 amended: for a particle exactly coincident with the pointer the
computed force direction is the zero vector, so the added impulse is zero
(no division by the vanishing distance occurs and, over the reals, no `NaN`
can arise); the velocity is completely unchanged provided the particle's
speed does not already exceed the `1.5` cap — a faster particle is still
rescaled to the cap by the clamp. -/
theorem mouse_coincident_no_impulse (p : PState ℝ)
    (h : Real.sqrt (p.speedX ^ 2 + p.speedY ^ 2) ≤ 1.5) :
    handleMouseParticle p.x p.y p = p := by
  simp only [handleMouseParticle, sub_self]
  rw [show (0 : ℝ) * 0 + 0 * 0 = 0 by norm_num, Real.sqrt_zero]
  rw [if_pos (by norm_num : (0 : ℝ) < 100)]
  simp only [zero_mul, add_zero]
  rw [if_neg (not_lt.mpr h)]

/-- C9 amended, witness: a concrete slow particle under the pointer is left
unchanged. -/
theorem mouse_coincident_no_impulse_witness :
    handleMouseParticle 5 7 ⟨5, 7, 1, 0, 1, 0, 1/2, 1⟩ =
      (⟨5, 7, 1, 0, 1, 0, 1/2, 1⟩ : PState ℝ) :=
  mouse_coincident_no_impulse ⟨5, 7, 1, 0, 1, 0, 1/2, 1⟩
    (by norm_num [Real.sqrt_one])

end Portfolio
